import Mathlib

/-!
Verification of the job-tracker backend's core subsystem: the Redis-backed
job persistence layer with secondary-index maintenance, the AI response
cache with content-addressed keys and TTL expiry, the retry wrapper around
the remote generation collaborator, the Mongo-backed pagination metadata,
and the CSV bulk import.

Every definition is a shallow embedding of the corresponding TypeScript
source function; timestamps are modelled as natural numbers (the code works
with ISO strings / `Date` values whose ordering is the numeric ordering of
the instant), and the external stores are modelled as explicit state passed
through the operations.
-/

/-- Job status enum from `job.types.ts`:
`type JobStatus = "Pending" | "Reject" | "Interview" | "Hired"`. -/
inductive JobStatus where
  | Pending
  | Reject
  | Interview
  | Hired
deriving DecidableEq, Repr

/-- The `Job` entity from `job.types.ts`.  `createdAt` / `updatedAt` are
modelled as `Nat` instants. -/
structure Job where
  id : String
  jobTitle : String
  companyName : String
  applicationLink : String
  companyLink : Option String
  requirements : String
  jobDescription : String
  status : JobStatus
  notes : String
  appliedDate : String
  createdAt : Nat
  updatedAt : Nat
deriving DecidableEq, Repr

/-- `CreateJobDTO` from `job.types.ts`: all `Job` fields except id and the
two timestamps. -/
structure CreateJobDTO where
  jobTitle : String
  companyName : String
  applicationLink : String
  companyLink : Option String
  requirements : String
  jobDescription : String
  status : JobStatus
  notes : String
  appliedDate : String
deriving DecidableEq, Repr

/-- `UpdateJobDTO = Partial CreateJobDTO` from `job.types.ts`: every field
optional; `none` models a field absent from the payload. -/
structure UpdateJobDTO where
  jobTitle : Option String := none
  companyName : Option String := none
  applicationLink : Option String := none
  companyLink : Option String := none
  requirements : Option String := none
  jobDescription : Option String := none
  status : Option JobStatus := none
  notes : Option String := none
  appliedDate : Option String := none
deriving DecidableEq, Repr

namespace KV

/-- Removal of every pair carrying a given key; the building block of the
overwriting `SET` and of `DEL`. -/
def kvErase : List (String × Job) → String → List (String × Job)
  | [], _ => []
  | p :: rest, k => if p.1 = k then kvErase rest k else p :: kvErase rest k

/-- Redis `SET job:id` modelled on an association list: the new pair
shadows (and physically replaces) any pair with the same key. -/
def kvSet (m : List (String × Job)) (k : String) (j : Job) : List (String × Job) :=
  (k, j) :: kvErase m k

/-- Redis `GET job:id` (`redis.service.ts` `getJob`): `none` models the
null reply for a missing key. -/
def kvGet : List (String × Job) → String → Option Job
  | [], _ => none
  | p :: rest, k => if p.1 = k then some p.2 else kvGet rest k

/-- Redis `DEL job:id` (`redis.service.ts` `deleteJobKey`). -/
def kvDel (m : List (String × Job)) (k : String) : List (String × Job) :=
  kvErase m k

/-- Redis `SADD` (`redis.service.ts` `addToSet`): adding an existing member
is a no-op. -/
def sAdd (l : List String) (v : String) : List String :=
  if v ∈ l then l else v :: l

/-- Redis `SREM` (`redis.service.ts` `removeFromSet`): removing a
non-member is a no-op. -/
def sRem (l : List String) (v : String) : List String :=
  l.filter (fun x => x ≠ v)

end KV

namespace RedisJobs

open KV

/-- The state of the Redis backend as the job service uses it: the primary
records under `job:id` keys, the `jobs:all` set, and one `jobs:status:s`
set per status (the three key namespaces of `redisKeys.ts` are disjoint,
so they are modelled as separate fields). -/
structure Store where
  jobs : List (String × Job)
  allSet : List String
  statusSet : JobStatus → List String

/-- The empty backend: no records, every set empty. -/
def emptyStore : Store :=
  { jobs := [], allSet := [], statusSet := fun _ => [] }

/-- Field-by-field merge of an `UpdateJobDTO` over an existing record: the
TypeScript spread `{...existingJob, ...data, updatedAt: new Date()}` of
`job.service.ts` (Redis variant) `updateJob`.  A field absent from the
payload keeps the existing value; `id` and `createdAt` are not part of the
DTO, so they are always kept. -/
def mergeJob (existing : Job) (data : UpdateJobDTO) (now : Nat) : Job :=
  { id := existing.id
    jobTitle := data.jobTitle.getD existing.jobTitle
    companyName := data.companyName.getD existing.companyName
    applicationLink := data.applicationLink.getD existing.applicationLink
    companyLink := match data.companyLink with
      | some v => some v
      | none => existing.companyLink
    requirements := data.requirements.getD existing.requirements
    jobDescription := data.jobDescription.getD existing.jobDescription
    status := data.status.getD existing.status
    notes := data.notes.getD existing.notes
    appliedDate := data.appliedDate.getD existing.appliedDate
    createdAt := existing.createdAt
    updatedAt := now }

/-- `createJob` of the Redis `job.service.ts`: builds the record with both
timestamps equal to `now`, stores it under `job:id`, adds the id to the
all-jobs set and to the status set of the record's status.  The generated
uuid is passed in as `id`. -/
def createJob (st : Store) (id : String) (data : CreateJobDTO) (now : Nat) :
    Job × Store :=
  let job : Job :=
    { id := id
      jobTitle := data.jobTitle
      companyName := data.companyName
      applicationLink := data.applicationLink
      companyLink := data.companyLink
      requirements := data.requirements
      jobDescription := data.jobDescription
      status := data.status
      notes := data.notes
      appliedDate := data.appliedDate
      createdAt := now
      updatedAt := now }
  (job,
    { jobs := kvSet st.jobs id job
      allSet := sAdd st.allSet id
      statusSet := Function.update st.statusSet job.status
        (sAdd (st.statusSet job.status) id) })

/-- `updateJob` of the Redis `job.service.ts`: fetch the existing record
(absent gives `none` and no mutation), merge the payload over it, store
the merged record, and — only when the payload carries a status different
from the snapshot's — remove the id from the OLD status set and add it to
the new one. -/
def updateJob (st : Store) (id : String) (data : UpdateJobDTO) (now : Nat) :
    Option Job × Store :=
  match kvGet st.jobs id with
  | none => (none, st)
  | some existingJob =>
    let oldStatus := existingJob.status
    let updatedJob := mergeJob existingJob data now
    let jobs' := kvSet st.jobs id updatedJob
    match data.status with
    | some s =>
      if s ≠ oldStatus then
        let sets₁ := Function.update st.statusSet oldStatus
          (sRem (st.statusSet oldStatus) id)
        let sets₂ := Function.update sets₁ s (sAdd (sets₁ s) id)
        (some updatedJob, { jobs := jobs', allSet := st.allSet, statusSet := sets₂ })
      else
        (some updatedJob, { jobs := jobs', allSet := st.allSet, statusSet := st.statusSet })
    | none =>
      (some updatedJob, { jobs := jobs', allSet := st.allSet, statusSet := st.statusSet })

/-- `deleteJob` of the Redis `job.service.ts`: fetch the record for its
status (absent gives `false` and no mutation), delete the `job:id` key,
remove the id from the all-jobs set and from its current status set. -/
def deleteJob (st : Store) (id : String) : Bool × Store :=
  match kvGet st.jobs id with
  | none => (false, st)
  | some existingJob =>
    (true,
      { jobs := kvDel st.jobs id
        allSet := sRem st.allSet id
        statusSet := Function.update st.statusSet existingJob.status
          (sRem (st.statusSet existingJob.status) id) })

/-- `getJobsByStatus` of the Redis `job.service.ts`: read the status set,
fetch each id's record, and keep a record only when it exists AND its
stored status equals the requested one (the filter
`job !== null && job.status === status`). -/
def getJobsByStatus (st : Store) (s : JobStatus) : List Job :=
  let jobIds := st.statusSet s
  if jobIds = [] then []
  else
    (jobIds.map (fun id => kvGet st.jobs id)).filterMap
      (fun o => match o with
        | some j => if j.status = s then some j else none
        | none => none)

end RedisJobs

namespace C1Model

open KV

/-- The status the primary store records for an id, when it records one. -/
def statusOf? (o : Option Job) : Option JobStatus :=
  o.map (·.status)

/-- The index-consistency contract: the all-jobs set holds exactly the live
ids, and each status set holds exactly the live ids whose stored record
currently carries that status. -/
def Inv (st : RedisJobs.Store) : Prop :=
  (∀ id, id ∈ st.allSet ↔ (kvGet st.jobs id).isSome)
  ∧ (∀ s id, id ∈ st.statusSet s ↔ statusOf? (kvGet st.jobs id) = some s)

/-- One lifecycle operation, with the uuid the service generates and the
clock reading passed in explicitly. -/
inductive JOp where
  | create (id : String) (data : CreateJobDTO) (now : Nat)
  | update (id : String) (data : UpdateJobDTO) (now : Nat)
  | delete (id : String)
deriving Repr

/-- The state transition of one operation (the primary record plus both
index maintenance writes of the service). -/
def applyOp (st : RedisJobs.Store) : JOp → RedisJobs.Store
  | .create id data now => (RedisJobs.createJob st id data now).2
  | .update id data now => (RedisJobs.updateJob st id data now).2
  | .delete id => (RedisJobs.deleteJob st id).2

/-- An operation is admissible when a create's generated uuid is fresh
(uuidv4 never collides with an existing record's id); updates and deletes
are always admissible. -/
def opOk (st : RedisJobs.Store) : JOp → Bool
  | .create id _ _ => (KV.kvGet st.jobs id).isNone
  | .update _ _ _ => true
  | .delete _ => true

/-- Every operation of the sequence is admissible in the state it runs in. -/
def opsOk : RedisJobs.Store → List JOp → Bool
  | _, [] => true
  | st, op :: rest => opOk st op && opsOk (applyOp st op) rest

/-- Run a sequence of lifecycle operations from a starting state. -/
def runOps (st : RedisJobs.Store) (ops : List JOp) : RedisJobs.Store :=
  ops.foldl applyOp st

end C1Model


namespace CacheModel

/-- `KnowledgeExtractionInput` from `knowledge.types.ts`, as consumed by
`extractKnowledgeRequirements`. -/
structure KnowledgeExtractionInput where
  jobTitle : String
  requirements : String
  jobDescription : String
  jobId : Option String := none
  forceRefresh : Bool := false
deriving DecidableEq, Repr

/-- `KnowledgeResearchInput` from `knowledge.types.ts`, as consumed by
`researchKnowledge`. -/
structure KnowledgeResearchInput where
  knowledgeItem : String
  proficiencyLevel : String
  forceRefresh : Bool := false
deriving DecidableEq, Repr

/-- One document of the `AIResponseCache` collection, holding the fields
the two services read and write. -/
structure CacheEntry where
  cacheKey : String
  cacheType : String
  inputHash : Option String := none
  jobId : Option String := none
  knowledgeItem : Option String := none
  proficiencyLevel : Option String := none
  responseContent : String
  aiModel : String
  responseTime : Nat
  createdAt : Nat
  updatedAt : Nat
  expiresAt : Nat
deriving DecidableEq, Repr

/-- The environment one request runs in: the outcome the remote Gemini
call (already wrapped in `withRetry`) settles to, the clock, the
configured model name, the retention window added by `getCacheExpiryDate`,
the digest function of `generateInputHash` (SHA-256 in the code), and
whether each of the two storage calls raises (the catch blocks of
`checkCache` / `saveToCache`). -/
structure Env where
  remote : Except String String
  now : Nat
  model : String
  retention : Nat
  hash : String → String
  lookupRaises : Bool
  persistRaises : Bool

/-- The separator-joined content that `generateInputHash` hashes:
`jobTitle|requirements|jobDescription`. -/
def extractionContent (i : KnowledgeExtractionInput) : String :=
  i.jobTitle ++ "|" ++ i.requirements ++ "|" ++ i.jobDescription

/-- The extraction cache key: `extraction:` followed by the digest of the
joined content. -/
def extractionCacheKey (hash : String → String) (i : KnowledgeExtractionInput) : String :=
  "extraction:" ++ hash (extractionContent i)

/-- `String.prototype.toLowerCase` as the code applies it to free-text
fields, restricted to its ASCII action: A-Z map to a-z, every other
character is unchanged. -/
def lowerChar (c : Char) : Char :=
  if 65 ≤ c.toNat ∧ c.toNat ≤ 90 then Char.ofNat (c.toNat + 32) else c

/-- Lower-casing a whole string, character by character. -/
def toLowerAscii (s : String) : String :=
  String.mk (s.data.map lowerChar)

/-- The research cache key built in `researchKnowledge`:
`research:` + `knowledgeItem.toLowerCase()` + `:` + `proficiencyLevel.toLowerCase()`. -/
def researchCacheKey (knowledgeItem proficiencyLevel : String) : String :=
  "research:" ++ toLowerAscii knowledgeItem ++ ":" ++ toLowerAscii proficiencyLevel

/-- `checkCache`: `findOne` on (cacheKey, cacheType, `expiresAt > now`),
returning the first matching document's content; a storage error is caught
and treated as a miss. -/
def checkCache (env : Env) (store : List CacheEntry) (key ctype : String) :
    Option String :=
  if env.lookupRaises then none
  else
    (store.find? (fun e =>
      e.cacheKey == key && e.cacheType == ctype && decide (env.now < e.expiresAt))).map
      (·.responseContent)

/-- `findOneAndUpdate({cacheKey}, {$set: fields}, {upsert: true})`: apply
the `$set` to the first document carrying the key, or insert the fresh
document when none does. -/
def upsertByKey (store : List CacheEntry) (key : String)
    (setFields : CacheEntry → CacheEntry) (fresh : CacheEntry) : List CacheEntry :=
  match store with
  | [] => [fresh]
  | e :: rest =>
    if e.cacheKey == key then setFields e :: rest
    else e :: upsertByKey rest key setFields fresh

/-- The extraction `saveToCache`: upsert under the derived key with the
`$set` field list of the code (cacheType, inputHash, jobId, content, model,
responseTime, a fresh `expiresAt`, updatedAt); `createdAt` and `cacheKey`
stay on update.  A storage error is caught and swallowed. -/
def saveToCacheExtraction (env : Env) (store : List CacheEntry)
    (key inputHash : String) (jobId : Option String) (content : String)
    (responseTime : Nat) : List CacheEntry :=
  if env.persistRaises then store
  else
    upsertByKey store key
      (fun old =>
        { old with
          cacheType := "knowledge-extraction"
          inputHash := some inputHash
          jobId := jobId
          responseContent := content
          aiModel := env.model
          responseTime := responseTime
          expiresAt := env.now + env.retention
          updatedAt := env.now })
      { cacheKey := key
        cacheType := "knowledge-extraction"
        inputHash := some inputHash
        jobId := jobId
        responseContent := content
        aiModel := env.model
        responseTime := responseTime
        createdAt := env.now
        updatedAt := env.now
        expiresAt := env.now + env.retention }

/-- The research `saveToCache`: same upsert with the research `$set` field
list (cacheType, knowledgeItem, proficiencyLevel, content, model,
responseTime, fresh `expiresAt`, updatedAt). -/
def saveToCacheResearch (env : Env) (store : List CacheEntry)
    (key knowledgeItem proficiencyLevel content : String)
    (responseTime : Nat) : List CacheEntry :=
  if env.persistRaises then store
  else
    upsertByKey store key
      (fun old =>
        { old with
          cacheType := "knowledge-research"
          knowledgeItem := some knowledgeItem
          proficiencyLevel := some proficiencyLevel
          responseContent := content
          aiModel := env.model
          responseTime := responseTime
          expiresAt := env.now + env.retention
          updatedAt := env.now })
      { cacheKey := key
        cacheType := "knowledge-research"
        knowledgeItem := some knowledgeItem
        proficiencyLevel := some proficiencyLevel
        responseContent := content
        aiModel := env.model
        responseTime := responseTime
        createdAt := env.now
        updatedAt := env.now
        expiresAt := env.now + env.retention }

/-- `ServiceResponse` with the payload shape the two knowledge services
return: generated or cached content plus the fromCache flag.
(`responseTime` is observability-only metadata, spec section 4.3, and is
not modelled in the response.) -/
inductive ServiceResp where
  | ok (content : String) (fromCache : Bool)
  | err (msg : String)
deriving DecidableEq, Repr

/-- A whole request's observable outcome: the response, the cache
collection afterwards, and whether the remote collaborator was invoked. -/
structure FlowResult where
  resp : ServiceResp
  store : List CacheEntry
  remoteCalled : Bool
deriving DecidableEq, Repr

/-- `extractKnowledgeRequirements`: validate, derive the key, consult the
cache unless forceRefresh, on a hit return the cached content with
fromCache = true, otherwise invoke the remote collaborator, persist on
success (upsert, failures swallowed) and return with fromCache = false; a
remote failure is caught and surfaced as an error response. -/
def extractKnowledgeRequirements (env : Env) (store : List CacheEntry)
    (input : KnowledgeExtractionInput) : FlowResult :=
  if input.jobTitle = "" || input.requirements = "" || input.jobDescription = "" then
    { resp := .err "Missing required fields: jobTitle, requirements, and jobDescription are required"
      store := store
      remoteCalled := false }
  else
    let inputHash := env.hash (extractionContent input)
    let cacheKey := "extraction:" ++ inputHash
    let cached := if input.forceRefresh then none
      else checkCache env store cacheKey "knowledge-extraction"
    match cached with
    | some content =>
      { resp := .ok content true, store := store, remoteCalled := false }
    | none =>
      match env.remote with
      | .error m => { resp := .err m, store := store, remoteCalled := true }
      | .ok text =>
        { resp := .ok text false
          store := saveToCacheExtraction env store cacheKey inputHash input.jobId text 0
          remoteCalled := true }

/-- `researchKnowledge`: the same state machine with the research key
derivation, cache type and persist field list. -/
def researchKnowledge (env : Env) (store : List CacheEntry)
    (input : KnowledgeResearchInput) : FlowResult :=
  if input.knowledgeItem = "" || input.proficiencyLevel = "" then
    { resp := .err "Missing required fields: knowledgeItem and proficiencyLevel are required"
      store := store
      remoteCalled := false }
  else
    let cacheKey := researchCacheKey input.knowledgeItem input.proficiencyLevel
    let cached := if input.forceRefresh then none
      else checkCache env store cacheKey "knowledge-research"
    match cached with
    | some content =>
      { resp := .ok content true, store := store, remoteCalled := false }
    | none =>
      match env.remote with
      | .error m => { resp := .err m, store := store, remoteCalled := true }
      | .ok text =>
        { resp := .ok text false
          store := saveToCacheResearch env store cacheKey
            input.knowledgeItem input.proficiencyLevel text 0
          remoteCalled := true }

end CacheModel

namespace GeminiClient

/-- `RETRY_CONFIG.maxAttempts` of `gemini-client.ts`. -/
def RETRY_maxAttempts : Nat := 3

/-- `RETRY_CONFIG.initialDelayMs`. -/
def RETRY_initialDelayMs : Nat := 1000

/-- `RETRY_CONFIG.maxDelayMs`. -/
def RETRY_maxDelayMs : Nat := 10000

/-- `RETRY_CONFIG.backoffMultiplier`. -/
def RETRY_backoffMultiplier : Nat := 2

/-- `message.includes(pat)` on character lists. -/
def containsSubstr (s pat : String) : Bool :=
  decide (pat.data <:+: s.data)

/-- The non-retry test of `withRetry`: the caught error's message contains
"404" or "not found" (the model-not-found class). -/
def nonRetryable (msg : String) : Bool :=
  containsSubstr msg "404" || containsSubstr msg "not found"

/-- What one `withRetry` run exposes: the settled outcome, the index of
the last attempt made (= the number of invocations of the wrapped
operation), and the sleep durations taken between attempts, in order. -/
structure RetryTrace (α : Type) where
  outcome : Except String α
  calls : Nat
  delays : List Nat

/-- The attempt loop of `withRetry`, with the number of attempts still
allowed after the current one as structural fuel.  `fn k` is the outcome
of the k-th invocation of the wrapped operation (attempts count from 1).
A success returns immediately; a non-retryable error is rethrown
immediately; on the final attempt the last error is rethrown; otherwise
the loop sleeps `delay` and continues with
`min (delay * backoffMultiplier) maxDelayMs`. -/
def withRetryGo (fn : Nat → Except String α) (attempt delay : Nat) :
    Nat → RetryTrace α
  | 0 =>
    match fn attempt with
    | .ok a => ⟨.ok a, attempt, []⟩
    | .error m => ⟨.error m, attempt, []⟩
  | rest + 1 =>
    match fn attempt with
    | .ok a => ⟨.ok a, attempt, []⟩
    | .error m =>
      if nonRetryable m then ⟨.error m, attempt, []⟩
      else
        let t := withRetryGo fn (attempt + 1)
          (min (delay * RETRY_backoffMultiplier) RETRY_maxDelayMs) rest
        ⟨t.outcome, t.calls, delay :: t.delays⟩

/-- `withRetry`: at most `RETRY_CONFIG.maxAttempts` invocations, starting
at attempt 1 with the initial delay. -/
def withRetry (fn : Nat → Except String α) : RetryTrace α :=
  withRetryGo fn 1 RETRY_initialDelayMs (RETRY_maxAttempts - 1)

end GeminiClient

namespace MongoJobs

/-- The pagination metadata object `getAllJobs` of the Mongo
`job.service.ts` returns. -/
structure Pagination where
  currentPage : Int
  totalPages : Nat
  totalItems : Nat
  itemsPerPage : Int
  hasNextPage : Bool
  hasPreviousPage : Bool
deriving DecidableEq, Repr

/-- Insertion into a list kept sorted by `createdAt` descending. -/
def insertByCreatedAtDesc (j : Job) : List Job → List Job
  | [] => [j]
  | x :: rest =>
    if x.createdAt ≤ j.createdAt then j :: x :: rest
    else x :: insertByCreatedAtDesc j rest

/-- The `sort({createdAt: -1})` of the Mongo query. -/
def sortByCreatedAtDesc (l : List Job) : List Job :=
  l.foldr insertByCreatedAtDesc []

/-- `getAllJobs(page, limit)` of the Mongo `job.service.ts`: clamp the
inputs (`pageNum = max(1, page)`, `limitNum = max(1, min(100, limit))`),
count, fetch the sorted slice via skip/limit, and build the pagination
metadata with `totalPages = ceil(totalItems / limitNum)`. -/
def getAllJobs (db : List Job) (page limit : Int) : List Job × Pagination :=
  let pageNum : Int := max 1 page
  let limitNum : Int := max 1 (min 100 limit)
  let skip : Nat := ((pageNum - 1) * limitNum).toNat
  let totalItems : Nat := db.length
  let jobs := ((sortByCreatedAtDesc db).drop skip).take limitNum.toNat
  let totalPages : Nat := (totalItems + limitNum.toNat - 1) / limitNum.toNat
  (jobs,
    { currentPage := pageNum
      totalPages := totalPages
      totalItems := totalItems
      itemsPerPage := limitNum
      hasNextPage := decide (pageNum < (totalPages : Int))
      hasPreviousPage := decide (1 < pageNum) })

end MongoJobs

namespace CsvImport

/-- `ImportJobDTO` of `csv.service.ts`: the create fields (possibly left
empty by the CSV parse) plus an optional `_id`.  The optional
`createdAt` / `updatedAt` of the interface are never read by the import
logic and are omitted. -/
structure ImportJobDTO where
  _id : Option String := none
  jobTitle : String := ""
  companyName : String := ""
  applicationLink : String := ""
  companyLink : Option String := none
  requirements : String := ""
  jobDescription : String := ""
  status : Option JobStatus := none
  notes : String := ""
  appliedDate : String := ""
deriving DecidableEq, Repr

/-- The field set `jobDocData` carries into the document store. -/
structure JobDoc where
  jobTitle : String
  companyName : String
  applicationLink : String
  companyLink : Option String
  requirements : String
  jobDescription : String
  status : JobStatus
  notes : String
  appliedDate : String
deriving DecidableEq, Repr

/-- `ImportResult` of `csv.service.ts`; an error row is (row number,
message). -/
structure ImportResult where
  success : Bool
  created : Nat
  updated : Nat
  failed : Nat
  errors : List (Nat × String)
deriving DecidableEq, Repr

/-- `mongoose.Types.ObjectId.isValid`: a 24-character hex string (or any
12-character string, the driver's binary form). -/
def isValidObjectId (s : String) : Bool :=
  (s.length == 24 && s.data.all (fun c =>
    c.isDigit || "abcdefABCDEF".data.contains c)) || s.length == 12

/-- `findById` over the document store, modelled as an association list. -/
def findDoc : List (String × JobDoc) → String → Option JobDoc
  | [], _ => none
  | p :: rest, k => if p.1 = k then some p.2 else findDoc rest k

/-- `findByIdAndUpdate(id, {$set: jobDocData})`: every field of `JobDoc`
is in the `$set`, so the first document with the id is replaced. -/
def setDoc : List (String × JobDoc) → String → JobDoc → List (String × JobDoc)
  | [], _, _ => []
  | p :: rest, k, d => if p.1 = k then (k, d) :: rest else p :: setDoc rest k d

/-- `jobDocData` built from one CSV row: the `|| ''` defaults leave string
fields as they are, `status || 'Pending'` defaults a missing status, and
`appliedDate || new Date().toISOString()` defaults a missing date to the
current instant. -/
def rowDoc (row : ImportJobDTO) (now : String) : JobDoc :=
  { jobTitle := row.jobTitle
    companyName := row.companyName
    applicationLink := row.applicationLink
    companyLink := row.companyLink
    requirements := row.requirements
    jobDescription := row.jobDescription
    status := row.status.getD .Pending
    notes := row.notes
    appliedDate := if row.appliedDate = "" then now else row.appliedDate }

/-- The body of the import loop of `importJobsFromCSV`: `i` is the
zero-based row index, `fc` counts consumed generated ids (`fresh`
models the auto-generated ObjectIds). -/
def importRows (fresh : Nat → String) (now : String) :
    List ImportJobDTO → Nat → Nat → ImportResult → List (String × JobDoc) →
    ImportResult × List (String × JobDoc)
  | [], _, _, res, db => (res, db)
  | row :: rest, i, fc, res, db =>
    if row.jobTitle = "" || row.companyName = "" || row.applicationLink = "" then
      importRows fresh now rest (i + 1) fc
        { res with
          failed := res.failed + 1
          errors := res.errors ++
            [(i + 1, "Missing required fields: jobTitle, companyName, or applicationLink")] }
        db
    else
      match row._id with
      | some rid =>
        if isValidObjectId rid then
          match findDoc db rid with
          | some _ =>
            importRows fresh now rest (i + 1) fc
              { res with updated := res.updated + 1 }
              (setDoc db rid (rowDoc row now))
          | none =>
            importRows fresh now rest (i + 1) fc
              { res with created := res.created + 1 }
              (db ++ [(rid, rowDoc row now)])
        else
          importRows fresh now rest (i + 1) fc
            { res with
              failed := res.failed + 1
              errors := res.errors ++ [(i + 1, "Invalid _id format: " ++ rid)] }
            db
      | none =>
        importRows fresh now rest (i + 1) (fc + 1)
          { res with created := res.created + 1 }
          (db ++ [(fresh fc, rowDoc row now)])

/-- `importJobsFromCSV`: run the row loop from zero counters, then apply
the final `if (result.failed === jobs.length) result.success = false`. -/
def importJobsFromCSV (fresh : Nat → String) (now : String)
    (db : List (String × JobDoc)) (rows : List ImportJobDTO) :
    ImportResult × List (String × JobDoc) :=
  let out := importRows fresh now rows 0 0
    { success := true, created := 0, updated := 0, failed := 0, errors := [] } db
  (if out.1.failed = rows.length then { out.1 with success := false } else out.1, out.2)

end CsvImport

namespace WitnessCfg

/-- A concrete creation payload used to instantiate the proved theorems. -/
def dtoPending : CreateJobDTO :=
  { jobTitle := "Backend Engineer"
    companyName := "Acme"
    applicationLink := "https://acme.example/apply"
    companyLink := none
    requirements := "TS"
    jobDescription := "Build services"
    status := JobStatus.Pending
    notes := ""
    appliedDate := "2025-01-01" }

/-- A concrete partial update changing only the status. -/
def updInterview : UpdateJobDTO :=
  { status := some JobStatus.Interview }

/-- A concrete admissible operation sequence. -/
def c1Ops : List C1Model.JOp :=
  [ C1Model.JOp.create "id-1" dtoPending 1
  , C1Model.JOp.create "id-2" dtoPending 2
  , C1Model.JOp.update "id-1" updInterview 3
  , C1Model.JOp.delete "id-2" ]

/-- A concrete job record living in the store at id-1. -/
def jobA : Job :=
  { id := "id-1"
    jobTitle := "Backend Engineer"
    companyName := "Acme"
    applicationLink := "https://acme.example/apply"
    companyLink := none
    requirements := "TS"
    jobDescription := "Build services"
    status := JobStatus.Pending
    notes := ""
    appliedDate := "2025-01-01"
    createdAt := 1
    updatedAt := 1 }

/-- A concrete Redis state holding exactly jobA, correctly indexed. -/
def storeA : RedisJobs.Store :=
  { jobs := [("id-1", jobA)]
    allSet := ["id-1"]
    statusSet := fun s => if s = JobStatus.Pending then ["id-1"] else [] }

/-- A concrete cache environment: remote call succeeds, clock at 100, the
digest modelled as the identity on the joined content. -/
def envOk : CacheModel.Env :=
  { remote := Except.ok "generated answer"
    now := 100
    model := "gemini-2.0-flash-exp"
    retention := 60
    hash := fun s => s
    lookupRaises := false
    persistRaises := false }

/-- A concrete extraction request (forceRefresh off). -/
def extIn : CacheModel.KnowledgeExtractionInput :=
  { jobTitle := "T", requirements := "R", jobDescription := "D" }

/-- The same extraction request with forceRefresh on. -/
def extInForce : CacheModel.KnowledgeExtractionInput :=
  { jobTitle := "T", requirements := "R", jobDescription := "D", forceRefresh := true }

/-- A concrete research request (forceRefresh off). -/
def resIn : CacheModel.KnowledgeResearchInput :=
  { knowledgeItem := "Kafka", proficiencyLevel := "Expert" }

/-- A second extraction request differing from extIn in one field. -/
def extIn2 : CacheModel.KnowledgeExtractionInput :=
  { jobTitle := "U", requirements := "R", jobDescription := "D" }

/-- A second research request differing from resIn. -/
def resIn2 : CacheModel.KnowledgeResearchInput :=
  { knowledgeItem := "Redis", proficiencyLevel := "Expert" }

/-- A stored extraction entry for extIn's key that expired exactly at the
clock reading (expiresAt = now = 100). -/
def staleExtEntry : CacheModel.CacheEntry :=
  { cacheKey := "extraction:T|R|D"
    cacheType := "knowledge-extraction"
    responseContent := "old extraction"
    aiModel := "gemini-2.0-flash-exp"
    responseTime := 0
    createdAt := 0
    updatedAt := 0
    expiresAt := 100 }

/-- A stored research entry for resIn's key, also stale. -/
def staleResEntry : CacheModel.CacheEntry :=
  { cacheKey := "research:kafka:expert"
    cacheType := "knowledge-research"
    responseContent := "old research"
    aiModel := "gemini-2.0-flash-exp"
    responseTime := 0
    createdAt := 0
    updatedAt := 0
    expiresAt := 100 }

/-- A fresh extraction entry for extIn's key (expiresAt well past now). -/
def freshExtEntry : CacheModel.CacheEntry :=
  { cacheKey := "extraction:T|R|D"
    cacheType := "knowledge-extraction"
    responseContent := "cached extraction"
    aiModel := "gemini-2.0-flash-exp"
    responseTime := 0
    createdAt := 0
    updatedAt := 0
    expiresAt := 1000 }

end WitnessCfg

/-!
The development's theorems: first the store-level lemmas, then one theorem
per specification claim (with its witness or counterexample where one is
called for).
-/

namespace KV

theorem kvGet_kvErase_ne (m : List (String × Job)) (k k' : String) (h : k' ≠ k) :
    kvGet (kvErase m k) k' = kvGet m k' := by
  induction m with
  | nil => rfl
  | cons p rest ih =>
    by_cases hp : p.1 = k
    · have hpk' : p.1 ≠ k' := by
        rw [hp]
        exact fun hh => h hh.symm

      simp [kvErase, hp, kvGet, hpk', ih, Ne.symm h]
    · simp [kvErase, hp, kvGet, ih]

theorem kvGet_kvErase_self (m : List (String × Job)) (k : String) :
    kvGet (kvErase m k) k = none := by
  induction m with
  | nil => rfl
  | cons p rest ih =>
    by_cases hp : p.1 = k
    · simp [kvErase, hp, ih]
    · simp [kvErase, hp, kvGet, ih]

theorem kvGet_kvSet (m : List (String × Job)) (k k' : String) (j : Job) :
    kvGet (kvSet m k j) k' = if k' = k then some j else kvGet m k' := by
  by_cases h : k' = k
  · subst h
    simp [kvSet, kvGet]
  · have hk : k ≠ k' := fun hh => h hh.symm
    rw [kvSet]
    simp only [kvGet, hk, if_neg h, if_false]
    exact kvGet_kvErase_ne m k k' h

theorem kvGet_kvDel (m : List (String × Job)) (k k' : String) :
    kvGet (kvDel m k) k' = if k' = k then none else kvGet m k' := by
  by_cases h : k' = k
  · subst h
    simp [kvDel, kvGet_kvErase_self]
  · simp only [kvDel, if_neg h]
    exact kvGet_kvErase_ne m k k' h

theorem mem_sAdd (l : List String) (v a : String) :
    a ∈ sAdd l v ↔ a = v ∨ a ∈ l := by
  unfold sAdd
  by_cases h : v ∈ l
  · simp only [if_pos h]
    constructor
    · exact Or.inr
    · rintro (rfl | ha)
      · exact h
      · exact ha
  · simp [if_neg h]

theorem mem_sRem (l : List String) (v a : String) :
    a ∈ sRem l v ↔ a ∈ l ∧ a ≠ v := by
  unfold sRem
  simp

end KV

namespace C1Model

open KV

theorem Inv_emptyStore : Inv RedisJobs.emptyStore := by
  constructor
  · intro id
    simp [RedisJobs.emptyStore, kvGet]
  · intro s id
    simp [RedisJobs.emptyStore, kvGet, statusOf?]

theorem Inv_createJob (st : RedisJobs.Store) (id : String) (data : CreateJobDTO)
    (now : Nat) (hInv : Inv st) (hfresh : kvGet st.jobs id = none) :
    Inv (RedisJobs.createJob st id data now).2 := by
  obtain ⟨hAll, hStatus⟩ := hInv
  constructor
  · intro a
    simp only [RedisJobs.createJob, mem_sAdd, kvGet_kvSet]
    by_cases ha : a = id
    · simp [ha]
    · simp [ha, hAll a]
  · intro s a
    simp only [RedisJobs.createJob, Function.update_apply, kvGet_kvSet]
    by_cases ha : a = id
    · subst ha
      by_cases hs : s = data.status
      · simp [hs, mem_sAdd, statusOf?]
      · have hmem : a ∉ st.statusSet s := by
          rw [hStatus s a, hfresh]
          simp [statusOf?]
        have hne : data.status ≠ s := fun hh => hs hh.symm
        simp [if_neg hs, statusOf?, hmem, hne]
    · by_cases hs : s = data.status
      · subst hs
        simp [mem_sAdd, ha, hStatus _ a]
      · simp [hs, ha, hStatus s a]

theorem Inv_updateJob (st : RedisJobs.Store) (id : String) (data : UpdateJobDTO)
    (now : Nat) (hInv : Inv st) :
    Inv (RedisJobs.updateJob st id data now).2 := by
  obtain ⟨hAll, hStatus⟩ := hInv
  unfold RedisJobs.updateJob
  cases hex : kvGet st.jobs id with
  | none => exact ⟨hAll, hStatus⟩
  | some existingJob =>
    dsimp only
    have hlive : id ∈ st.allSet := by
      rw [hAll id, hex]
      rfl
    have hAll' : ∀ a, a ∈ st.allSet ↔
        (kvGet (kvSet st.jobs id (RedisJobs.mergeJob existingJob data now)) a).isSome := by
      intro a
      rw [kvGet_kvSet]
      by_cases ha : a = id
      · subst ha
        simp [hlive]
      · simp [ha, hAll a]
    cases hds : data.status with
    | none =>
      dsimp only
      refine ⟨hAll', ?_⟩
      intro s a
      rw [kvGet_kvSet]
      by_cases ha : a = id
      · subst ha
        rw [if_pos rfl, hStatus s a, hex]
        simp [statusOf?, RedisJobs.mergeJob, hds]
      · simp only [if_neg ha]
        exact hStatus s a
    | some s₀ =>
      dsimp only
      have hms : (RedisJobs.mergeJob existingJob data now).status = s₀ := by
        simp [RedisJobs.mergeJob, hds]
      by_cases hchg : s₀ ≠ existingJob.status
      · rw [if_pos hchg]
        refine ⟨hAll', ?_⟩
        intro s a
        dsimp only
        rw [Function.update_apply, kvGet_kvSet]
        by_cases ha : a = id
        · subst ha
          rw [if_pos rfl]
          by_cases hs : s = s₀
          · subst hs
            simp [mem_sAdd, statusOf?, hms]
          · have hns : s₀ ≠ s := fun hh => hs hh.symm
            rw [if_neg hs, Function.update_apply]
            by_cases hso : s = existingJob.status
            · rw [if_pos hso, mem_sRem]
              simp [statusOf?, hms, hns]
            · have hes : existingJob.status ≠ s := fun hh => hso hh.symm
              rw [if_neg hso, hStatus s a, hex]
              simp [statusOf?, hms, hns, hes]
        · rw [if_neg ha]
          by_cases hs : s = s₀
          · subst hs
            rw [if_pos rfl, mem_sAdd, Function.update_apply,
              if_neg (fun hh : s = existingJob.status => hchg hh)]
            rw [← hStatus s a]
            simp [ha]
          · rw [if_neg hs, Function.update_apply]
            by_cases hso : s = existingJob.status
            · rw [if_pos hso, mem_sRem, ← hso, ← hStatus s a]
              simp [ha]
            · rw [if_neg hso]
              exact hStatus s a
      · rw [if_neg hchg]
        push_neg at hchg
        refine ⟨hAll', ?_⟩
        intro s a
        rw [kvGet_kvSet]
        by_cases ha : a = id
        · subst ha
          rw [if_pos rfl, hStatus s a, hex]
          simp [statusOf?, hms, hchg]
        · simp only [if_neg ha]
          exact hStatus s a

theorem Inv_deleteJob (st : RedisJobs.Store) (id : String) (hInv : Inv st) :
    Inv (RedisJobs.deleteJob st id).2 := by
  obtain ⟨hAll, hStatus⟩ := hInv
  unfold RedisJobs.deleteJob
  cases hex : kvGet st.jobs id with
  | none => exact ⟨hAll, hStatus⟩
  | some existingJob =>
    dsimp only
    constructor
    · intro a
      rw [mem_sRem, kvGet_kvDel]
      by_cases ha : a = id
      · simp [ha]
      · simp [ha, hAll a]
    · intro s a
      dsimp only
      rw [Function.update_apply, kvGet_kvDel]
      by_cases ha : a = id
      · subst ha
        rw [if_pos rfl]
        by_cases hs : s = existingJob.status
        · rw [if_pos hs, mem_sRem]
          simp [statusOf?]
        · have hes : existingJob.status ≠ s := fun hh => hs hh.symm
          rw [if_neg hs, hStatus s a, hex]
          simp [statusOf?, hes]
      · rw [if_neg ha]
        by_cases hs : s = existingJob.status
        · rw [if_pos hs, mem_sRem, ← hs, ← hStatus s a]
          simp [ha]
        · rw [if_neg hs]
          exact hStatus s a

theorem Inv_applyOp (st : RedisJobs.Store) (op : JOp) (hInv : Inv st)
    (hok : opOk st op = true) : Inv (applyOp st op) := by
  cases op with
  | create id data now =>
    refine Inv_createJob st id data now hInv ?_
    simpa [opOk, Option.isNone_iff_eq_none] using hok
  | update id data now => exact Inv_updateJob st id data now hInv
  | delete id => exact Inv_deleteJob st id hInv

theorem Inv_runOps_take (ops : List JOp) :
    ∀ st, Inv st → opsOk st ops = true → ∀ n, Inv (runOps st (ops.take n)) := by
  induction ops with
  | nil =>
    intro st h _ n
    simpa [runOps] using h
  | cons op rest ih =>
    intro st h hok n
    simp only [opsOk, Bool.and_eq_true] at hok
    cases n with
    | zero => simpa [runOps] using h
    | succ n =>
      rw [List.take_succ_cons]
      show Inv (runOps (applyOp st op) (rest.take n))
      exact ih (applyOp st op) (Inv_applyOp st op h hok.1) hok.2 n

theorem Inv_statusSet_unique (st : RedisJobs.Store) (h : Inv st) (id : String)
    (s₁ s₂ : JobStatus) (h₁ : id ∈ st.statusSet s₁) (h₂ : id ∈ st.statusSet s₂) :
    s₁ = s₂ := by
  have e₁ := (h.2 s₁ id).mp h₁
  have e₂ := (h.2 s₂ id).mp h₂
  exact Option.some_inj.mp (e₁.symm.trans e₂)

end C1Model

/-- C1: for every finite sequence of createJob / updateJob / deleteJob
operations in which no storage operation fails (the model is failure-free;
the generated uuids are fresh), after each operation the all-jobs set
contains exactly the ids of live jobs, each status set contains exactly
the ids of live jobs whose current status is that status, and each live id
appears in exactly one status set. -/
theorem c1_index_consistency (ops : List C1Model.JOp)
    (hok : C1Model.opsOk RedisJobs.emptyStore ops = true) (n : Nat) :
    C1Model.Inv (C1Model.runOps RedisJobs.emptyStore (ops.take n)) ∧
    (∀ id s₁ s₂,
      id ∈ (C1Model.runOps RedisJobs.emptyStore (ops.take n)).statusSet s₁ →
      id ∈ (C1Model.runOps RedisJobs.emptyStore (ops.take n)).statusSet s₂ →
      s₁ = s₂) := by
  have hInv := C1Model.Inv_runOps_take ops RedisJobs.emptyStore
    C1Model.Inv_emptyStore hok n
  exact ⟨hInv, fun id s₁ s₂ h₁ h₂ =>
    C1Model.Inv_statusSet_unique _ hInv id s₁ s₂ h₁ h₂⟩

/-- C1 witness: the invariant after the first three operations of a
concrete admissible create/create/update sequence. -/
theorem c1_index_consistency_witness :
    C1Model.opsOk RedisJobs.emptyStore WitnessCfg.c1Ops = true ∧
    C1Model.Inv (C1Model.runOps RedisJobs.emptyStore (WitnessCfg.c1Ops.take 3)) :=
  ⟨by decide, (c1_index_consistency WitnessCfg.c1Ops (by decide) 3).1⟩

namespace RedisJobs

open KV

theorem mergeJob_spec (existing : Job) (data : UpdateJobDTO) (now : Nat) :
    (mergeJob existing data now).id = existing.id ∧
    (mergeJob existing data now).createdAt = existing.createdAt ∧
    (mergeJob existing data now).updatedAt = now ∧
    (∀ v, data.jobTitle = some v → (mergeJob existing data now).jobTitle = v) ∧
    (data.jobTitle = none → (mergeJob existing data now).jobTitle = existing.jobTitle) ∧
    (∀ v, data.companyName = some v → (mergeJob existing data now).companyName = v) ∧
    (data.companyName = none → (mergeJob existing data now).companyName = existing.companyName) ∧
    (∀ v, data.applicationLink = some v → (mergeJob existing data now).applicationLink = v) ∧
    (data.applicationLink = none →
      (mergeJob existing data now).applicationLink = existing.applicationLink) ∧
    (∀ v, data.companyLink = some v → (mergeJob existing data now).companyLink = some v) ∧
    (data.companyLink = none → (mergeJob existing data now).companyLink = existing.companyLink) ∧
    (∀ v, data.requirements = some v → (mergeJob existing data now).requirements = v) ∧
    (data.requirements = none →
      (mergeJob existing data now).requirements = existing.requirements) ∧
    (∀ v, data.jobDescription = some v → (mergeJob existing data now).jobDescription = v) ∧
    (data.jobDescription = none →
      (mergeJob existing data now).jobDescription = existing.jobDescription) ∧
    (∀ v, data.status = some v → (mergeJob existing data now).status = v) ∧
    (data.status = none → (mergeJob existing data now).status = existing.status) ∧
    (∀ v, data.notes = some v → (mergeJob existing data now).notes = v) ∧
    (data.notes = none → (mergeJob existing data now).notes = existing.notes) ∧
    (∀ v, data.appliedDate = some v → (mergeJob existing data now).appliedDate = v) ∧
    (data.appliedDate = none →
      (mergeJob existing data now).appliedDate = existing.appliedDate) := by
  refine ⟨rfl, rfl, rfl, ?_, ?_, ?_, ?_, ?_, ?_, ?_, ?_, ?_, ?_, ?_, ?_, ?_, ?_, ?_, ?_,
    ?_, ?_⟩ <;>
  first
    | (intro v hv
       simp [mergeJob, hv])
    | (intro hv
       simp [mergeJob, hv])

theorem updateJob_found_no_status (st : Store) (id : String) (data : UpdateJobDTO)
    (now : Nat) (existing : Job) (hex : kvGet st.jobs id = some existing)
    (hds : data.status = none) :
    updateJob st id data now =
      (some (mergeJob existing data now),
        { jobs := kvSet st.jobs id (mergeJob existing data now)
          allSet := st.allSet
          statusSet := st.statusSet }) := by
  unfold updateJob
  rw [hex]
  dsimp only
  rw [hds]

theorem updateJob_found_same_status (st : Store) (id : String) (data : UpdateJobDTO)
    (now : Nat) (existing : Job) (hex : kvGet st.jobs id = some existing)
    (hds : data.status = some existing.status) :
    updateJob st id data now =
      (some (mergeJob existing data now),
        { jobs := kvSet st.jobs id (mergeJob existing data now)
          allSet := st.allSet
          statusSet := st.statusSet }) := by
  unfold updateJob
  rw [hex]
  dsimp only
  rw [hds]
  dsimp only
  rw [if_neg (by simp)]

theorem updateJob_found_changed_status (st : Store) (id : String) (data : UpdateJobDTO)
    (now : Nat) (existing : Job) (s₀ : JobStatus)
    (hex : kvGet st.jobs id = some existing) (hds : data.status = some s₀)
    (hchg : s₀ ≠ existing.status) :
    updateJob st id data now =
      (some (mergeJob existing data now),
        { jobs := kvSet st.jobs id (mergeJob existing data now)
          allSet := st.allSet
          statusSet := Function.update
            (Function.update st.statusSet existing.status
              (sRem (st.statusSet existing.status) id))
            s₀ (sAdd (st.statusSet s₀) id) }) := by
  unfold updateJob
  rw [hex]
  dsimp only
  rw [hds]
  dsimp only
  rw [if_pos hchg]
  rw [Function.update_noteq hchg]

end RedisJobs

/-- C5: for every existing job and partial-update payload, updateJob
stores the merge of the payload over the pre-update snapshot — fields
absent from the payload (id and createdAt included) are unchanged, fields
present take the payload's value, updatedAt is set to the fresh clock
reading — and when the payload changes the status, the set-maintenance
removal uses the OLD status of the pre-merge snapshot while the id joins
the new status set; without a status change no status set moves. -/
theorem c5_update_merge_frame (st : RedisJobs.Store) (id : String)
    (data : UpdateJobDTO) (now : Nat) (existing : Job)
    (hex : KV.kvGet st.jobs id = some existing) :
    (RedisJobs.updateJob st id data now).1
        = some (RedisJobs.mergeJob existing data now) ∧
    KV.kvGet (RedisJobs.updateJob st id data now).2.jobs id
        = some (RedisJobs.mergeJob existing data now) ∧
    (RedisJobs.updateJob st id data now).2.allSet = st.allSet ∧
    (RedisJobs.mergeJob existing data now).id = existing.id ∧
    (RedisJobs.mergeJob existing data now).createdAt = existing.createdAt ∧
    (RedisJobs.mergeJob existing data now).updatedAt = now ∧
    (∀ v, data.jobTitle = some v → (RedisJobs.mergeJob existing data now).jobTitle = v) ∧
    (data.jobTitle = none →
      (RedisJobs.mergeJob existing data now).jobTitle = existing.jobTitle) ∧
    (∀ v, data.status = some v → (RedisJobs.mergeJob existing data now).status = v) ∧
    (data.status = none →
      (RedisJobs.mergeJob existing data now).status = existing.status) ∧
    (∀ s, data.status = some s → s ≠ existing.status →
      (RedisJobs.updateJob st id data now).2.statusSet existing.status
          = KV.sRem (st.statusSet existing.status) id ∧
      (RedisJobs.updateJob st id data now).2.statusSet s
          = KV.sAdd (st.statusSet s) id ∧
      id ∉ (RedisJobs.updateJob st id data now).2.statusSet existing.status ∧
      ∀ s', s' ≠ s → s' ≠ existing.status →
        (RedisJobs.updateJob st id data now).2.statusSet s' = st.statusSet s') ∧
    ((data.status = none ∨ data.status = some existing.status) →
      (RedisJobs.updateJob st id data now).2.statusSet = st.statusSet) := by
  have hspec := RedisJobs.mergeJob_spec existing data now
  rcases hds : data.status with _ | s₀
  · rw [hds] at hspec
    have he := RedisJobs.updateJob_found_no_status st id data now existing hex hds
    rw [he]
    refine ⟨rfl, by simp [KV.kvGet_kvSet], rfl,
      hspec.1, hspec.2.1, hspec.2.2.1, hspec.2.2.2.1, hspec.2.2.2.2.1,
      hspec.2.2.2.2.2.2.2.2.2.2.2.2.2.2.2.1, hspec.2.2.2.2.2.2.2.2.2.2.2.2.2.2.2.2.1,
      ?_, fun _ => rfl⟩
    intro s hs
    exact absurd hs (by simp)
  · rw [hds] at hspec
    by_cases hchg : s₀ = existing.status
    · have he := RedisJobs.updateJob_found_same_status st id data now existing hex
        (by rw [hds, hchg])
      rw [he]
      refine ⟨rfl, by simp [KV.kvGet_kvSet], rfl,
        hspec.1, hspec.2.1, hspec.2.2.1, hspec.2.2.2.1, hspec.2.2.2.2.1,
        hspec.2.2.2.2.2.2.2.2.2.2.2.2.2.2.2.1, hspec.2.2.2.2.2.2.2.2.2.2.2.2.2.2.2.2.1,
        ?_, fun _ => rfl⟩
      intro s hs hne
      cases hs
      exact absurd hchg hne
    · have he := RedisJobs.updateJob_found_changed_status st id data now existing s₀
        hex hds hchg
      rw [he]
      refine ⟨rfl, by simp [KV.kvGet_kvSet], rfl,
        hspec.1, hspec.2.1, hspec.2.2.1, hspec.2.2.2.1, hspec.2.2.2.2.1,
        hspec.2.2.2.2.2.2.2.2.2.2.2.2.2.2.2.1, hspec.2.2.2.2.2.2.2.2.2.2.2.2.2.2.2.2.1,
        ?_, ?_⟩
      · intro s hs hne
        cases hs
        dsimp only
        refine ⟨?_, ?_, ?_, ?_⟩
        · rw [Function.update_noteq (Ne.symm hchg), Function.update_same]
        · rw [Function.update_same]
        · rw [Function.update_noteq (Ne.symm hchg), Function.update_same, KV.mem_sRem]
          simp
        · intro s' h1 h2
          rw [Function.update_noteq h1, Function.update_noteq h2]
      · rintro (h | h)
        · cases h
        · cases h
          exact absurd rfl hchg

/-- C5 witness: a concrete store holding one Pending job updated to
Interview at clock 2. -/
theorem c5_update_merge_frame_witness :
    KV.kvGet WitnessCfg.storeA.jobs "id-1" = some WitnessCfg.jobA ∧
    (RedisJobs.updateJob WitnessCfg.storeA "id-1" WitnessCfg.updInterview 2).1
      = some (RedisJobs.mergeJob WitnessCfg.jobA WitnessCfg.updInterview 2) :=
  ⟨by decide,
    (c5_update_merge_frame WitnessCfg.storeA "id-1" WitnessCfg.updInterview 2
      WitnessCfg.jobA (by decide)).1⟩

/-- C10: getJobsByStatus returns exactly the jobs reachable from the
requested status set whose stored record exists AND still carries the
requested status — for every store state, drifted set entries (missing
record, or a record whose status differs) are silently dropped, strictly
stronger than dropping only missing records. -/
theorem c10_jobs_by_status_characterization (st : RedisJobs.Store)
    (s : JobStatus) (j : Job) :
    j ∈ RedisJobs.getJobsByStatus st s ↔
      ((∃ id, id ∈ st.statusSet s ∧ KV.kvGet st.jobs id = some j) ∧ j.status = s) := by
  unfold RedisJobs.getJobsByStatus
  by_cases hempty : st.statusSet s = []
  · simp [hempty]
  · rw [if_neg hempty]
    simp only [List.mem_filterMap, List.mem_map]
    constructor
    · rintro ⟨o, ⟨id, hid, rfl⟩, ho⟩
      cases hkv : KV.kvGet st.jobs id with
      | none =>
        rw [hkv] at ho
        cases ho
      | some j' =>
        rw [hkv] at ho
        dsimp only at ho
        by_cases hstat : j'.status = s
        · rw [if_pos hstat] at ho
          cases ho
          exact ⟨⟨id, hid, hkv⟩, hstat⟩
        · rw [if_neg hstat] at ho
          cases ho
    · rintro ⟨⟨id, hid, hkv⟩, hstat⟩
      refine ⟨KV.kvGet st.jobs id, ⟨id, hid, rfl⟩, ?_⟩
      rw [hkv]
      dsimp only
      rw [if_pos hstat]

theorem sep_append_inj (sep : Char) :
    ∀ (x₁ x₂ y₁ y₂ : List Char), sep ∉ x₁ → sep ∉ x₂ →
      x₁ ++ sep :: y₁ = x₂ ++ sep :: y₂ → x₁ = x₂ ∧ y₁ = y₂ := by
  intro x₁
  induction x₁ with
  | nil =>
    intro x₂ y₁ y₂ _ hx₂ h
    cases x₂ with
    | nil =>
      simp only [List.nil_append, List.cons.injEq] at h
      exact ⟨rfl, h.2⟩
    | cons b rest =>
      simp only [List.nil_append, List.cons_append, List.cons.injEq] at h
      refine absurd ?_ hx₂
      rw [h.1]
      exact List.mem_cons_self b rest
  | cons a rest₁ ih =>
    intro x₂ y₁ y₂ hx₁ hx₂ h
    cases x₂ with
    | nil =>
      simp only [List.cons_append, List.nil_append, List.cons.injEq] at h
      refine absurd ?_ hx₁
      rw [← h.1]
      exact List.mem_cons_self a rest₁
    | cons b rest₂ =>
      simp only [List.cons_append, List.cons.injEq] at h
      obtain ⟨hab, htail⟩ := h
      have hx₁' : sep ∉ rest₁ := fun hmem => hx₁ (List.mem_cons_of_mem a hmem)
      have hx₂' : sep ∉ rest₂ := fun hmem => hx₂ (List.mem_cons_of_mem b hmem)
      obtain ⟨he, hy⟩ := ih rest₂ y₁ y₂ hx₁' hx₂' htail
      exact ⟨by rw [hab, he], hy⟩

theorem extractionContent_data (i : CacheModel.KnowledgeExtractionInput) :
    (CacheModel.extractionContent i).data
      = i.jobTitle.data ++ '|' :: (i.requirements.data ++ '|' :: i.jobDescription.data) := by
  simp [CacheModel.extractionContent, String.data_append, List.append_assoc,
    (show ("|" : String).data = ['|'] from rfl)]

theorem researchCacheKey_data (k l : String) :
    (CacheModel.researchCacheKey k l).data
      = "research:".data ++ ((CacheModel.toLowerAscii k).data ++ ':' :: (CacheModel.toLowerAscii l).data) := by
  simp [CacheModel.researchCacheKey, String.data_append, List.append_assoc,
    (show (":" : String).data = [':'] from rfl)]

/-- C2 counterexample: two distinct extraction triples whose separator-
joined contents are the SAME string ("a|b","c","d") vs ("a","b|c","d") —
so any digest of them, hence the derived key, coincides — and two research
pairs distinct after lower-casing, ("a:b","c") vs ("a","b:c"), with the
same derived research key. -/
theorem c2_cache_key_collision :
    CacheModel.extractionContent
        { jobTitle := "a|b", requirements := "c", jobDescription := "d" }
      = CacheModel.extractionContent
        { jobTitle := "a", requirements := "b|c", jobDescription := "d" } ∧
    ({ jobTitle := "a|b", requirements := "c", jobDescription := "d" }
        : CacheModel.KnowledgeExtractionInput)
      ≠ { jobTitle := "a", requirements := "b|c", jobDescription := "d" } ∧
    CacheModel.researchCacheKey "a:b" "c" = CacheModel.researchCacheKey "a" "b:c" ∧
    (CacheModel.toLowerAscii "a:b", CacheModel.toLowerAscii "c")
      ≠ (CacheModel.toLowerAscii "a", CacheModel.toLowerAscii "b:c") := by
  refine ⟨by decide, by decide, by decide, by decide⟩

/-- C2 amended: key derivation is deterministic (re-deriving from the same
logical input yields the identical string), and it is injective on inputs
that do not contain the separator: two extraction triples with '|'-free
jobTitle and requirements and two research pairs whose lower-cased
knowledge items are ':'-free yield distinct joined contents / keys
whenever the inputs differ (for research, differ after lower-casing). -/
theorem c2_cache_key_unique_amended
    (i₁ i₂ : CacheModel.KnowledgeExtractionInput)
    (r₁ r₂ : CacheModel.KnowledgeResearchInput)
    (h₁ : '|' ∉ i₁.jobTitle.data) (h₂ : '|' ∉ i₂.jobTitle.data)
    (h₃ : '|' ∉ i₁.requirements.data) (h₄ : '|' ∉ i₂.requirements.data)
    (hne : (i₁.jobTitle, i₁.requirements, i₁.jobDescription)
         ≠ (i₂.jobTitle, i₂.requirements, i₂.jobDescription))
    (hr₁ : ':' ∉ (CacheModel.toLowerAscii r₁.knowledgeItem).data)
    (hr₂ : ':' ∉ (CacheModel.toLowerAscii r₂.knowledgeItem).data)
    (hrne : (CacheModel.toLowerAscii r₁.knowledgeItem,
             CacheModel.toLowerAscii r₁.proficiencyLevel)
          ≠ (CacheModel.toLowerAscii r₂.knowledgeItem,
             CacheModel.toLowerAscii r₂.proficiencyLevel)) :
    CacheModel.extractionContent i₁ = CacheModel.extractionContent i₁ ∧
    CacheModel.researchCacheKey r₁.knowledgeItem r₁.proficiencyLevel
      = CacheModel.researchCacheKey r₁.knowledgeItem r₁.proficiencyLevel ∧
    CacheModel.extractionContent i₁ ≠ CacheModel.extractionContent i₂ ∧
    CacheModel.researchCacheKey r₁.knowledgeItem r₁.proficiencyLevel
      ≠ CacheModel.researchCacheKey r₂.knowledgeItem r₂.proficiencyLevel := by
  refine ⟨rfl, rfl, ?_, ?_⟩
  · intro hcontra
    have hd := congrArg String.data hcontra
    rw [extractionContent_data, extractionContent_data] at hd
    obtain ⟨hjt, hrest⟩ := sep_append_inj '|' _ _ _ _ h₁ h₂ hd
    obtain ⟨hreq, hdesc⟩ := sep_append_inj '|' _ _ _ _ h₃ h₄ hrest
    exact hne (by rw [String.ext hjt, String.ext hreq, String.ext hdesc])
  · intro hcontra
    have hd := congrArg String.data hcontra
    rw [researchCacheKey_data, researchCacheKey_data] at hd
    have hd' := List.append_cancel_left hd
    obtain ⟨hk, hl⟩ := sep_append_inj ':' _ _ _ _ hr₁ hr₂ hd'
    exact hrne (by rw [String.ext hk, String.ext hl])

/-- C2 witness: the amended uniqueness at concrete separator-free inputs. -/
theorem c2_cache_key_unique_witness :
    CacheModel.extractionContent WitnessCfg.extIn
        ≠ CacheModel.extractionContent WitnessCfg.extIn2 ∧
    CacheModel.researchCacheKey WitnessCfg.resIn.knowledgeItem
        WitnessCfg.resIn.proficiencyLevel
      ≠ CacheModel.researchCacheKey WitnessCfg.resIn2.knowledgeItem
        WitnessCfg.resIn2.proficiencyLevel :=
  ⟨(c2_cache_key_unique_amended WitnessCfg.extIn WitnessCfg.extIn2
      WitnessCfg.resIn WitnessCfg.resIn2 (by decide) (by decide) (by decide)
      (by decide) (by decide) (by decide) (by decide) (by decide)).2.2.1,
   (c2_cache_key_unique_amended WitnessCfg.extIn WitnessCfg.extIn2
      WitnessCfg.resIn WitnessCfg.resIn2 (by decide) (by decide) (by decide)
      (by decide) (by decide) (by decide) (by decide) (by decide)).2.2.2⟩

theorem checkCache_stale_none (env : CacheModel.Env)
    (store : List CacheModel.CacheEntry) (key ctype : String)
    (hstale : ∀ e ∈ store, e.cacheKey = key → e.cacheType = ctype →
      e.expiresAt ≤ env.now) :
    CacheModel.checkCache env store key ctype = none := by
  unfold CacheModel.checkCache
  by_cases hre : env.lookupRaises
  · simp [hre]
  · rw [if_neg hre]
    rw [Option.map_eq_none', List.find?_eq_none]
    intro e he
    simp only [Bool.and_eq_true, beq_iff_eq, decide_eq_true_eq, not_and]
    intro hk
    have := hstale e he hk.1 hk.2
    omega

/-- C3: a cache entry whose expiresAt is not strictly later than the
current time is never returned as a hit: for every cache state and every
extraction or research request with forceRefresh = false, when every
stored entry under the derived key has expiresAt ≤ now, the lookup
reports a miss and the flow's result never carries fromCache = true. -/
theorem c3_stale_never_hit (env : CacheModel.Env)
    (store : List CacheModel.CacheEntry)
    (einput : CacheModel.KnowledgeExtractionInput)
    (rinput : CacheModel.KnowledgeResearchInput)
    (hef : einput.forceRefresh = false) (hrf : rinput.forceRefresh = false)
    (hestale : ∀ e ∈ store,
      e.cacheKey = "extraction:" ++ env.hash (CacheModel.extractionContent einput) →
      e.cacheType = "knowledge-extraction" → e.expiresAt ≤ env.now)
    (hrstale : ∀ e ∈ store,
      e.cacheKey = CacheModel.researchCacheKey rinput.knowledgeItem
        rinput.proficiencyLevel →
      e.cacheType = "knowledge-research" → e.expiresAt ≤ env.now) :
    CacheModel.checkCache env store
        ("extraction:" ++ env.hash (CacheModel.extractionContent einput))
        "knowledge-extraction" = none ∧
    CacheModel.checkCache env store
        (CacheModel.researchCacheKey rinput.knowledgeItem rinput.proficiencyLevel)
        "knowledge-research" = none ∧
    (∀ c, (CacheModel.extractKnowledgeRequirements env store einput).resp
        ≠ CacheModel.ServiceResp.ok c true) ∧
    (∀ c, (CacheModel.researchKnowledge env store rinput).resp
        ≠ CacheModel.ServiceResp.ok c true) := by
  have hm₁ := checkCache_stale_none env store
    ("extraction:" ++ env.hash (CacheModel.extractionContent einput))
    "knowledge-extraction" hestale
  have hm₂ := checkCache_stale_none env store
    (CacheModel.researchCacheKey rinput.knowledgeItem rinput.proficiencyLevel)
    "knowledge-research" hrstale
  refine ⟨hm₁, hm₂, ?_, ?_⟩
  · intro c
    unfold CacheModel.extractKnowledgeRequirements
    by_cases hval : (decide (einput.jobTitle = "")
        || decide (einput.requirements = "")
        || decide (einput.jobDescription = "")) = true
    · rw [if_pos hval]
      intro h
      cases h
    · rw [if_neg hval]
      dsimp only
      rw [hef]
      simp only [Bool.false_eq_true, if_false]
      rw [hm₁]
      cases env.remote with
      | error m =>
        intro h
        cases h
      | ok t =>
        intro h
        cases h
  · intro c
    unfold CacheModel.researchKnowledge
    by_cases hval : (decide (rinput.knowledgeItem = "")
        || decide (rinput.proficiencyLevel = "")) = true
    · rw [if_pos hval]
      intro h
      cases h
    · rw [if_neg hval]
      dsimp only
      rw [hrf]
      simp only [Bool.false_eq_true, if_false]
      rw [hm₂]
      cases env.remote with
      | error m =>
        intro h
        cases h
      | ok t =>
        intro h
        cases h

/-- C3 witness: with a store holding exactly-expired extraction and
research entries (expiresAt = now = 100), both lookups miss. -/
theorem c3_stale_never_hit_witness :
    CacheModel.checkCache WitnessCfg.envOk
        [WitnessCfg.staleExtEntry, WitnessCfg.staleResEntry]
        ("extraction:" ++ WitnessCfg.envOk.hash
          (CacheModel.extractionContent WitnessCfg.extIn))
        "knowledge-extraction" = none ∧
    CacheModel.checkCache WitnessCfg.envOk
        [WitnessCfg.staleExtEntry, WitnessCfg.staleResEntry]
        (CacheModel.researchCacheKey WitnessCfg.resIn.knowledgeItem
          WitnessCfg.resIn.proficiencyLevel)
        "knowledge-research" = none :=
  ⟨(c3_stale_never_hit WitnessCfg.envOk
      [WitnessCfg.staleExtEntry, WitnessCfg.staleResEntry]
      WitnessCfg.extIn WitnessCfg.resIn rfl rfl (by decide) (by decide)).1,
   (c3_stale_never_hit WitnessCfg.envOk
      [WitnessCfg.staleExtEntry, WitnessCfg.staleResEntry]
      WitnessCfg.extIn WitnessCfg.resIn rfl rfl (by decide) (by decide)).2.1⟩

theorem upsertByKey_filter_singleton (key : String)
    (setFields : CacheModel.CacheEntry → CacheModel.CacheEntry)
    (fresh : CacheModel.CacheEntry)
    (hkeep : ∀ e, (setFields e).cacheKey = e.cacheKey) :
    ∀ (store : List CacheModel.CacheEntry) (e₀ : CacheModel.CacheEntry),
      store.filter (fun e => e.cacheKey == key) = [e₀] →
      (CacheModel.upsertByKey store key setFields fresh).filter
          (fun e => e.cacheKey == key) = [setFields e₀] := by
  intro store
  induction store with
  | nil =>
    intro e₀ h
    simp at h
  | cons a rest ih =>
    intro e₀ h
    unfold CacheModel.upsertByKey
    rw [List.filter_cons] at h
    by_cases hk : (a.cacheKey == key) = true
    · rw [if_pos hk]
      rw [if_pos hk] at h
      have hae : a = e₀ ∧ rest.filter (fun e => e.cacheKey == key) = [] := by
        have := List.cons.inj h
        exact ⟨this.1, this.2⟩
      have hsk : ((setFields a).cacheKey == key) = true := by
        rw [hkeep a]
        exact hk
      rw [List.filter_cons, if_pos hsk, hae.2, hae.1]
    · rw [if_neg hk]
      rw [if_neg hk] at h
      rw [List.filter_cons, if_neg hk]
      exact ih e₀ h

/-- C7: an extraction request with forceRefresh = true invokes the remote
collaborator even when a fresh cache entry exists under the derived key,
and on success persists the generated result by upsert under that same key
— the single existing entry is overwritten in place (same key, new
content, fresh expiry), no second entry appears — and the response carries
the generated text with fromCache = false. -/
theorem c7_force_refresh_overwrites (env : CacheModel.Env)
    (store : List CacheModel.CacheEntry)
    (einput : CacheModel.KnowledgeExtractionInput)
    (t : String) (e₀ : CacheModel.CacheEntry)
    (hf : einput.forceRefresh = true)
    (hv₁ : einput.jobTitle ≠ "") (hv₂ : einput.requirements ≠ "")
    (hv₃ : einput.jobDescription ≠ "")
    (hremote : env.remote = Except.ok t)
    (hnp : env.persistRaises = false)
    (hone : store.filter (fun e =>
      e.cacheKey == "extraction:" ++ env.hash (CacheModel.extractionContent einput))
        = [e₀])
    (hfr : env.now < e₀.expiresAt) :
    (CacheModel.extractKnowledgeRequirements env store einput).remoteCalled = true ∧
    (CacheModel.extractKnowledgeRequirements env store einput).resp
        = CacheModel.ServiceResp.ok t false ∧
    (CacheModel.extractKnowledgeRequirements env store einput).store.filter
        (fun e => e.cacheKey
          == "extraction:" ++ env.hash (CacheModel.extractionContent einput))
      = [{ e₀ with
            cacheType := "knowledge-extraction"
            inputHash := some (env.hash (CacheModel.extractionContent einput))
            jobId := einput.jobId
            responseContent := t
            aiModel := env.model
            responseTime := 0
            expiresAt := env.now + env.retention
            updatedAt := env.now }] := by
  unfold CacheModel.extractKnowledgeRequirements
  rw [if_neg (by simp [hv₁, hv₂, hv₃])]
  dsimp only
  rw [hf]
  simp only [if_true]
  rw [hremote]
  dsimp only
  refine ⟨rfl, rfl, ?_⟩
  unfold CacheModel.saveToCacheExtraction
  rw [hnp]
  simp only [Bool.false_eq_true, if_false]
  exact upsertByKey_filter_singleton
    ("extraction:" ++ env.hash (CacheModel.extractionContent einput))
    (fun old =>
      { old with
        cacheType := "knowledge-extraction"
        inputHash := some (env.hash (CacheModel.extractionContent einput))
        jobId := einput.jobId
        responseContent := t
        aiModel := env.model
        responseTime := 0
        expiresAt := env.now + env.retention
        updatedAt := env.now })
    _ (fun e => rfl) store e₀ hone

/-- C7 witness: forceRefresh with a fresh cached entry still calls the
remote collaborator and returns the generated text uncached. -/
theorem c7_force_refresh_overwrites_witness :
    (CacheModel.extractKnowledgeRequirements WitnessCfg.envOk
        [WitnessCfg.freshExtEntry] WitnessCfg.extInForce).remoteCalled = true ∧
    (CacheModel.extractKnowledgeRequirements WitnessCfg.envOk
        [WitnessCfg.freshExtEntry] WitnessCfg.extInForce).resp
      = CacheModel.ServiceResp.ok "generated answer" false :=
  ⟨(c7_force_refresh_overwrites WitnessCfg.envOk [WitnessCfg.freshExtEntry]
      WitnessCfg.extInForce "generated answer" WitnessCfg.freshExtEntry
      rfl (by decide) (by decide) (by decide) rfl rfl (by decide) (by decide)).1,
   (c7_force_refresh_overwrites WitnessCfg.envOk [WitnessCfg.freshExtEntry]
      WitnessCfg.extInForce "generated answer" WitnessCfg.freshExtEntry
      rfl (by decide) (by decide) (by decide) rfl rfl (by decide) (by decide)).2.1⟩

theorem checkCache_raises_none (env : CacheModel.Env)
    (store : List CacheModel.CacheEntry) (key ctype : String)
    (hl : env.lookupRaises = true) :
    CacheModel.checkCache env store key ctype = none := by
  unfold CacheModel.checkCache
  rw [hl]
  simp

/-- C8: a cache-storage failure never aborts the overall operation: when
the lookup raises, the flow proceeds as on a miss (the remote collaborator
is invoked and its successful answer is returned); when persisting raises,
the error is swallowed — the operation still returns success with the
freshly generated answer and the store is left unchanged.  Both the
extraction and the research flow. -/
theorem c8_storage_failure_resilience (env : CacheModel.Env)
    (store : List CacheModel.CacheEntry)
    (einput : CacheModel.KnowledgeExtractionInput)
    (rinput : CacheModel.KnowledgeResearchInput) (t : String) :
    ((env.lookupRaises = true ∧ einput.forceRefresh = false ∧
      einput.jobTitle ≠ "" ∧ einput.requirements ≠ "" ∧
      einput.jobDescription ≠ "" ∧ env.remote = Except.ok t) →
      (CacheModel.extractKnowledgeRequirements env store einput).remoteCalled = true ∧
      (CacheModel.extractKnowledgeRequirements env store einput).resp
        = CacheModel.ServiceResp.ok t false) ∧
    ((einput.forceRefresh = true ∧ einput.jobTitle ≠ "" ∧
      einput.requirements ≠ "" ∧ einput.jobDescription ≠ "" ∧
      env.remote = Except.ok t ∧ env.persistRaises = true) →
      (CacheModel.extractKnowledgeRequirements env store einput).resp
        = CacheModel.ServiceResp.ok t false ∧
      (CacheModel.extractKnowledgeRequirements env store einput).store = store) ∧
    ((env.lookupRaises = true ∧ rinput.forceRefresh = false ∧
      rinput.knowledgeItem ≠ "" ∧ rinput.proficiencyLevel ≠ "" ∧
      env.remote = Except.ok t) →
      (CacheModel.researchKnowledge env store rinput).remoteCalled = true ∧
      (CacheModel.researchKnowledge env store rinput).resp
        = CacheModel.ServiceResp.ok t false) ∧
    ((rinput.forceRefresh = true ∧ rinput.knowledgeItem ≠ "" ∧
      rinput.proficiencyLevel ≠ "" ∧ env.remote = Except.ok t ∧
      env.persistRaises = true) →
      (CacheModel.researchKnowledge env store rinput).resp
        = CacheModel.ServiceResp.ok t false ∧
      (CacheModel.researchKnowledge env store rinput).store = store) := by
  refine ⟨?_, ?_, ?_, ?_⟩
  · rintro ⟨hl, hf, hv₁, hv₂, hv₃, hrem⟩
    unfold CacheModel.extractKnowledgeRequirements
    rw [if_neg (by simp [hv₁, hv₂, hv₃])]
    dsimp only
    rw [hf]
    simp only [Bool.false_eq_true, if_false]
    rw [checkCache_raises_none env store _ _ hl]
    rw [hrem]
    exact ⟨rfl, rfl⟩
  · rintro ⟨hf, hv₁, hv₂, hv₃, hrem, hp⟩
    unfold CacheModel.extractKnowledgeRequirements
    rw [if_neg (by simp [hv₁, hv₂, hv₃])]
    dsimp only
    rw [hf]
    simp only [if_true]
    rw [hrem]
    refine ⟨rfl, ?_⟩
    show CacheModel.saveToCacheExtraction env store _ _ _ _ _ = store
    unfold CacheModel.saveToCacheExtraction
    rw [hp]
    simp
  · rintro ⟨hl, hf, hv₁, hv₂, hrem⟩
    unfold CacheModel.researchKnowledge
    rw [if_neg (by simp [hv₁, hv₂])]
    dsimp only
    rw [hf]
    simp only [Bool.false_eq_true, if_false]
    rw [checkCache_raises_none env store _ _ hl]
    rw [hrem]
    exact ⟨rfl, rfl⟩
  · rintro ⟨hf, hv₁, hv₂, hrem, hp⟩
    unfold CacheModel.researchKnowledge
    rw [if_neg (by simp [hv₁, hv₂])]
    dsimp only
    rw [hf]
    simp only [if_true]
    rw [hrem]
    refine ⟨rfl, ?_⟩
    show CacheModel.saveToCacheResearch env store _ _ _ _ _ = store
    unfold CacheModel.saveToCacheResearch
    rw [hp]
    simp

namespace GeminiClient

theorem withRetryGo_ok {α : Type} (fn : Nat → Except String α)
    (attempt delay rest : Nat) (a : α) (h : fn attempt = Except.ok a) :
    withRetryGo fn attempt delay rest = ⟨Except.ok a, attempt, []⟩ := by
  cases rest <;> (unfold withRetryGo; rw [h])

theorem withRetryGo_last_error {α : Type} (fn : Nat → Except String α)
    (attempt delay : Nat) (m : String) (h : fn attempt = Except.error m) :
    withRetryGo fn attempt delay 0 = ⟨Except.error m, attempt, []⟩ := by
  unfold withRetryGo
  rw [h]

theorem withRetryGo_nonretryable {α : Type} (fn : Nat → Except String α)
    (attempt delay rest : Nat) (m : String) (h : fn attempt = Except.error m)
    (hm : nonRetryable m = true) :
    withRetryGo fn attempt delay rest = ⟨Except.error m, attempt, []⟩ := by
  cases rest with
  | zero =>
    unfold withRetryGo
    rw [h]
  | succ rest =>
    unfold withRetryGo
    rw [h]
    simp [hm]

theorem withRetryGo_retry {α : Type} (fn : Nat → Except String α)
    (attempt delay rest : Nat) (m : String) (h : fn attempt = Except.error m)
    (hm : nonRetryable m = false) :
    withRetryGo fn attempt delay (rest + 1) =
      ⟨(withRetryGo fn (attempt + 1)
          (min (delay * RETRY_backoffMultiplier) RETRY_maxDelayMs) rest).outcome,
       (withRetryGo fn (attempt + 1)
          (min (delay * RETRY_backoffMultiplier) RETRY_maxDelayMs) rest).calls,
       delay :: (withRetryGo fn (attempt + 1)
          (min (delay * RETRY_backoffMultiplier) RETRY_maxDelayMs) rest).delays⟩ := by
  conv_lhs => unfold withRetryGo
  rw [h]
  dsimp only
  rw [if_neg (by simp [hm])]

theorem withRetryGo_calls_le {α : Type} (fn : Nat → Except String α) :
    ∀ (rest attempt delay : Nat),
      (withRetryGo fn attempt delay rest).calls ≤ attempt + rest := by
  intro rest
  induction rest with
  | zero =>
    intro attempt delay
    cases h : fn attempt with
    | ok a =>
      rw [withRetryGo_ok fn attempt delay 0 a h]
      dsimp only
      omega
    | error m =>
      rw [withRetryGo_last_error fn attempt delay m h]
      dsimp only
      omega
  | succ rest ih =>
    intro attempt delay
    cases h : fn attempt with
    | ok a =>
      rw [withRetryGo_ok fn attempt delay (rest + 1) a h]
      dsimp only
      omega
    | error m =>
      by_cases hm : nonRetryable m = true
      · rw [withRetryGo_nonretryable fn attempt delay (rest + 1) m h hm]
        dsimp only
        omega
      · rw [withRetryGo_retry fn attempt delay rest m h (by simpa using hm)]
        dsimp only
        have := ih (attempt + 1) (min (delay * RETRY_backoffMultiplier) RETRY_maxDelayMs)
        omega

theorem withRetryGo_delays_le {α : Type} (fn : Nat → Except String α) :
    ∀ (rest attempt delay : Nat), delay ≤ RETRY_maxDelayMs →
      ∀ d ∈ (withRetryGo fn attempt delay rest).delays, d ≤ RETRY_maxDelayMs := by
  intro rest
  induction rest with
  | zero =>
    intro attempt delay _ d hd
    cases h : fn attempt with
    | ok a =>
      rw [withRetryGo_ok fn attempt delay 0 a h] at hd
      cases hd
    | error m =>
      rw [withRetryGo_last_error fn attempt delay m h] at hd
      cases hd
  | succ rest ih =>
    intro attempt delay hdel d hd
    cases h : fn attempt with
    | ok a =>
      rw [withRetryGo_ok fn attempt delay (rest + 1) a h] at hd
      cases hd
    | error m =>
      by_cases hm : nonRetryable m = true
      · rw [withRetryGo_nonretryable fn attempt delay (rest + 1) m h hm] at hd
        cases hd
      · rw [withRetryGo_retry fn attempt delay rest m h (by simpa using hm)] at hd
        rcases List.mem_cons.mp hd with rfl | hd'
        · exact hdel
        · exact ih (attempt + 1) _ (min_le_right _ _) d hd'

end GeminiClient

/-- C6: withRetry invokes the wrapped operation at most 3 times; an error
whose message matches the "model not found"/404 class is rethrown
immediately with no further attempt, whichever attempt raised it; the
retry delays start at 1000 ms, double each retry and never exceed the
10000 ms ceiling; and once the attempt cap is exhausted the last error
propagates to the caller. -/
theorem c6_with_retry_contract (α : Type) (fn : Nat → Except String α) :
    (GeminiClient.withRetry fn).calls ≤ GeminiClient.RETRY_maxAttempts ∧
    (∀ d ∈ (GeminiClient.withRetry fn).delays, d ≤ GeminiClient.RETRY_maxDelayMs) ∧
    (∀ m, fn 1 = Except.error m → GeminiClient.nonRetryable m = true →
      GeminiClient.withRetry fn
        = ⟨Except.error m, 1, []⟩) ∧
    (∀ m₁ m₂, fn 1 = Except.error m₁ → GeminiClient.nonRetryable m₁ = false →
      fn 2 = Except.error m₂ → GeminiClient.nonRetryable m₂ = true →
      GeminiClient.withRetry fn
        = ⟨Except.error m₂, 2, [GeminiClient.RETRY_initialDelayMs]⟩) ∧
    (∀ m₁ m₂ m₃, fn 1 = Except.error m₁ → GeminiClient.nonRetryable m₁ = false →
      fn 2 = Except.error m₂ → GeminiClient.nonRetryable m₂ = false →
      fn 3 = Except.error m₃ →
      GeminiClient.withRetry fn
        = ⟨Except.error m₃, 3, [1000, 2000]⟩) := by
  refine ⟨?_, ?_, ?_, ?_, ?_⟩
  · exact GeminiClient.withRetryGo_calls_le fn (GeminiClient.RETRY_maxAttempts - 1)
      1 GeminiClient.RETRY_initialDelayMs
  · exact GeminiClient.withRetryGo_delays_le fn (GeminiClient.RETRY_maxAttempts - 1)
      1 GeminiClient.RETRY_initialDelayMs (by decide)
  · intro m h1 hn1
    exact GeminiClient.withRetryGo_nonretryable fn 1
      GeminiClient.RETRY_initialDelayMs (GeminiClient.RETRY_maxAttempts - 1) m h1 hn1
  · intro m₁ m₂ h1 hn1 h2 hn2
    show GeminiClient.withRetryGo fn 1 GeminiClient.RETRY_initialDelayMs 2 = _
    rw [GeminiClient.withRetryGo_retry fn 1 GeminiClient.RETRY_initialDelayMs 1 m₁ h1 hn1]
    rw [GeminiClient.withRetryGo_nonretryable fn 2 _ 1 m₂ h2 hn2]
  · intro m₁ m₂ m₃ h1 hn1 h2 hn2 h3
    show GeminiClient.withRetryGo fn 1 GeminiClient.RETRY_initialDelayMs 2 = _
    rw [GeminiClient.withRetryGo_retry fn 1 GeminiClient.RETRY_initialDelayMs 1 m₁ h1 hn1]
    rw [GeminiClient.withRetryGo_retry fn 2 _ 0 m₂ h2 hn2]
    rw [GeminiClient.withRetryGo_last_error fn 3 _ m₃ h3]
    rfl

/-- C9: getAllJobs uses an effective page of max(1, page) and an effective
limit clamped into [1, 100], and the returned metadata satisfies
itemsPerPage = clamped limit, totalPages = ceil(totalItems / clamped
limit), hasNextPage iff effective page < totalPages, and hasPreviousPage
iff effective page > 1. -/
theorem c9_pagination_metadata (db : List Job) (page limit : Int) :
    (MongoJobs.getAllJobs db page limit).2.currentPage = max 1 page ∧
    (MongoJobs.getAllJobs db page limit).2.itemsPerPage = min 100 (max 1 limit) ∧
    1 ≤ (MongoJobs.getAllJobs db page limit).2.itemsPerPage ∧
    (MongoJobs.getAllJobs db page limit).2.itemsPerPage ≤ 100 ∧
    1 ≤ (MongoJobs.getAllJobs db page limit).2.currentPage ∧
    (MongoJobs.getAllJobs db page limit).2.totalItems = db.length ∧
    (MongoJobs.getAllJobs db page limit).2.totalPages
      = db.length ⌈/⌉ (MongoJobs.getAllJobs db page limit).2.itemsPerPage.toNat ∧
    ((MongoJobs.getAllJobs db page limit).2.hasNextPage = true ↔
      (MongoJobs.getAllJobs db page limit).2.currentPage
        < ((MongoJobs.getAllJobs db page limit).2.totalPages : Int)) ∧
    ((MongoJobs.getAllJobs db page limit).2.hasPreviousPage = true ↔
      1 < (MongoJobs.getAllJobs db page limit).2.currentPage) := by
  unfold MongoJobs.getAllJobs
  dsimp only
  refine ⟨rfl, by omega, by omega, by omega, by omega, rfl, ?_, ?_, ?_⟩
  · rw [Nat.ceilDiv_eq_add_pred_div]
  · simp
  · simp

/-- C4 counterexample: importJobsFromCSV applied to a zero-row input
returns success = FALSE — the final check `failed === jobs.length` holds
vacuously as 0 = 0 — with zero counts, no errors and an untouched store;
the claim asserts success = true. -/
theorem c4_empty_import_counterexample :
    (CsvImport.importJobsFromCSV (fun _ => "") "2025-01-01" [] []).1.success = false ∧
    (CsvImport.importJobsFromCSV (fun _ => "") "2025-01-01" [] []).1.created = 0 ∧
    (CsvImport.importJobsFromCSV (fun _ => "") "2025-01-01" [] []).1.updated = 0 ∧
    (CsvImport.importJobsFromCSV (fun _ => "") "2025-01-01" [] []).1.failed = 0 ∧
    (CsvImport.importJobsFromCSV (fun _ => "") "2025-01-01" [] []).1.errors = [] ∧
    (CsvImport.importJobsFromCSV (fun _ => "") "2025-01-01" [] []).2 = [] :=
  ⟨rfl, rfl, rfl, rfl, rfl, rfl⟩

/-- C4 amended: on a zero-row input importJobsFromCSV performs no store
mutation and returns created = 0, updated = 0, failed = 0 with an empty
errors list, but with success = FALSE (the `failed === jobs.length`
all-failed check is vacuously true at 0 = 0), for every store state and
id/clock supply. -/
theorem c4_empty_import_amended (fresh : Nat → String) (now : String)
    (db : List (String × CsvImport.JobDoc)) :
    CsvImport.importJobsFromCSV fresh now db []
      = ({ success := false, created := 0, updated := 0, failed := 0,
           errors := [] }, db) := rfl
